import Mathlib

/-!
Shallow embedding of the u-blox framing/deframing core
(`src/framing/checksum.rs`, `src/framing/deframer.rs`,
`src/framing/frame.rs`) and of the message dispatch layer
(`src/messages/mod.rs`, `src/messages/ack/mod.rs`,
`src/messages/cfg/mod.rs`, `src/messages/nav/mod.rs`).

Bytes are modelled as `Nat`; every spot where the Rust code relies on
8-bit (`u8`) or 16-bit (`u16`) wraparound carries an explicit `% 256`
or `% 65536`.  Mutation is modelled by explicit state passing:
`Deframer::push(&mut self, u8) -> Result<Option<Frame>, FrameError>`
becomes a function `Deframer → Nat → Except FrameError (Option Frame) × Deframer`
returning the result together with the successor state.
-/

namespace Ublox

/-- Embeds `Checksum` (checksum.rs): a pair of 8-bit accumulators.
The Rust struct wraps a `(u8, u8)` tuple; we name the components
`ck_a` and `ck_b` as the source's local bindings do. -/
structure Checksum where
  ck_a : Nat
  ck_b : Nat
deriving DecidableEq, Repr

/-- Embeds `Checksum::new` / `Checksum::default`: both accumulators zero. -/
def Checksum.new : Checksum := ⟨0, 0⟩

/-- Embeds `Checksum::push`: `ck_a = ck_a.wrapping_add(input)` then
`ck_b = ck_b.wrapping_add(ck_a)` (with the updated `ck_a`); wrapping
`u8` addition is addition mod 256.  The Rust method also returns
`input` unchanged; in the pure embedding callers simply reuse `input`. -/
def Checksum.push (c : Checksum) (input : Nat) : Checksum :=
  let a := (c.ck_a + input) % 256
  ⟨a, (c.ck_b + a) % 256⟩

/-- Embeds `Checksum::with`: a fresh checksum initialized with a first byte. -/
def Checksum.with' (input : Nat) : Checksum :=
  Checksum.new.push input

/-- Embeds `Checksum::take`: returns the `(ck_a, ck_b)` pair and the
reset (default) state that `core::mem::take` leaves behind. -/
def Checksum.take (c : Checksum) : (Nat × Nat) × Checksum :=
  ((c.ck_a, c.ck_b), Checksum.new)

/-- Embeds `Frame` (frame.rs): message class, id and raw message bytes
(`FrameVec` is `Vec<u8>` in the `std` build, modelled as `List Nat`).
The Rust field `class` is a Lean keyword, so it is named `cls` here. -/
structure Frame where
  cls : Nat
  id : Nat
  message : List Nat
deriving DecidableEq, Repr

/-- Embeds `FrameError` (error.rs).  In the `std` build (the one whose
`FrameVec = Vec<u8>` is modelled here) the `Size` variant is compiled
out (`#[cfg(not(feature = "std"))]`), leaving only `Checksum`. -/
inductive FrameError where
  | Checksum : FrameError
deriving DecidableEq, Repr

/-- Embeds the `Deframer` state enum (deframer.rs), one constructor per
Rust variant, each carrying exactly the fields of that variant. -/
inductive Deframer where
  | Sync (accum : Nat) (processed : Nat) : Deframer
  | Class : Deframer
  | Id (cls : Nat) (cksum : Checksum) : Deframer
  | LengthLsb (cls : Nat) (id : Nat) (cksum : Checksum) : Deframer
  | LengthMsb (cls : Nat) (id : Nat) (len_b0 : Nat) (cksum : Checksum) : Deframer
  | Message (cls : Nat) (id : Nat) (len : Nat) (message : List Nat)
      (cksum : Checksum) : Deframer
  | CkA (cls : Nat) (id : Nat) (message : List Nat) (cksum_calc : Nat × Nat) :
      Deframer
  | CkB (cls : Nat) (id : Nat) (message : List Nat) (cksum_calc : Nat × Nat) :
      Deframer
deriving DecidableEq, Repr

/-- Embeds `Deframer::new` (also `Default::default`): the `Sync` state
with a zeroed shift register and byte counter. -/
def Deframer.new : Deframer := .Sync 0 0

/-- Embeds `Deframer::push` (deframer.rs lines 32-170).  The `u16`
shift register update `(*accum << 8) | u16::from(input)` becomes
`((accum <<< 8) % 65536) ||| input`; the `usize` length assembly
`(usize::from(input) << 8) | usize::from(len_b0)` becomes
`(input <<< 8) ||| len_b0` (no truncation on `usize` for byte-sized
operands).  Every arm returns the Rust function's return value paired
with the state left in `self`. -/
def Deframer.push (d : Deframer) (input : Nat) :
    Except FrameError (Option Frame) × Deframer :=
  match d with
  | .Sync accum processed =>
      let accum' := ((accum <<< 8) % 65536) ||| input
      if accum' = 0xB562 then
        (.ok none, .Class)
      else
        (.ok none, .Sync accum' (processed + 1))
  | .Class =>
      (.ok none, .Id input (Checksum.with' input))
  | .Id cls cksum =>
      (.ok none, .LengthLsb cls input (cksum.push input))
  | .LengthLsb cls id cksum =>
      (.ok none, .LengthMsb cls id input (cksum.push input))
  | .LengthMsb cls id len_b0 cksum =>
      let len := (input <<< 8) ||| len_b0
      if len > 999 then
        (.ok none, Deframer.new)
      else
        (.ok none, .Message cls id len [] (cksum.push input))
  | .Message cls id len message cksum =>
      let cksum' := cksum.push input
      let message' := message ++ [input]
      if message'.length = len then
        (.ok none, .CkA cls id message' (cksum'.take).1)
      else
        (.ok none, .Message cls id len message' cksum')
  | .CkA cls id message cksum_calc =>
      if input = cksum_calc.1 then
        (.ok none, .CkB cls id message cksum_calc)
      else
        (.error .Checksum, Deframer.new)
  | .CkB cls id message cksum_calc =>
      if input = cksum_calc.2 then
        (.ok (some ⟨cls, id, message⟩), Deframer.new)
      else
        (.error .Checksum, Deframer.new)

/-- Embeds the loop body of the one-shot `deframe` function
(deframer.rs lines 7-18): push each byte in turn, return the first
`Ok(Some(frame))` result; any other result (including errors) is
discarded and iteration continues with the updated deframer. -/
def deframeLoop (d : Deframer) : List Nat → Except FrameError (Option Frame)
  | [] => .ok none
  | b :: rest =>
      match d.push b with
      | (.ok (some f), _) => .ok (some f)
      | (_, d') => deframeLoop d' rest

/-- Embeds `deframe`: run `deframeLoop` from a fresh `Deframer`. -/
def deframe (bytes : List Nat) : Except FrameError (Option Frame) :=
  deframeLoop Deframer.new bytes

/-- Driver for the byte-at-a-time experiments the spec describes:
feed a byte list through `Deframer.push` one byte at a time, collecting
every per-byte result in order together with the final state. -/
def pushAll (d : Deframer) : List Nat →
    List (Except FrameError (Option Frame)) × Deframer
  | [] => ([], d)
  | b :: rest =>
      ((d.push b).1 :: (pushAll (d.push b).2 rest).1, (pushAll (d.push b).2 rest).2)

/-- Embeds `Frame::into_framed_vec` (frame.rs lines 25-54): prepend
`[0xB5, 0x62, class, id, len_lsb, len_msb]` (extend + rotate in Rust),
then append the checksum computed over the bytes after the sync word.
`(message.len() as u16).to_le_bytes()` truncates the length to 16 bits
and splits it little-endian. -/
def Frame.into_framed_vec (f : Frame) : List Nat :=
  let lenu16 := f.message.length % 65536
  let hdr := [0xB5, 0x62, f.cls, f.id, lenu16 % 256, lenu16 / 256]
  let message := hdr ++ f.message
  let cksm := (message.drop 2).foldl Checksum.push Checksum.new
  message ++ [(cksm.take).1.1, (cksm.take).1.2]

/-- Embeds `frame` (frame.rs lines 58-83), the fixed-buffer encoder.
It is generic over the message type `M`; here the associated constants
`M::LEN`, `M::CLASS`, `M::ID` are parameters and `M::to_bytes`
(which overwrites the `LEN`-byte slice `buf[6..LEN+6]` it is handed)
is a parameter `to_bytes` mapping that slice's current contents to its
new contents.  The checksum loop `for b in buf.iter().skip(2)` runs
over the whole truncated buffer `buf[..LEN+8]` as it stands *before*
the checksum bytes are stored, so it takes in the two stale bytes at
offsets `LEN+6` and `LEN+7`.  Returns `Ok((written, final buffer))`. -/
def frame (LEN CLASS ID : Nat)
    (to_bytes : List Nat → Except Unit (List Nat))
    (buf : List Nat) : Except Unit (Nat × List Nat) := do
  let FRAME_OVERHEAD := 8
  if buf.length < FRAME_OVERHEAD + LEN then
    throw ()
  let buf1 := buf.take (LEN + FRAME_OVERHEAD)
  let lenu16 := LEN % 65536
  let buf2 := [0xB5, 0x62, CLASS, ID, lenu16 % 256, lenu16 / 256] ++ buf1.drop 6
  let body ← to_bytes ((buf2.drop 6).take LEN)
  let buf3 := buf2.take 6 ++ body ++ buf2.drop (LEN + 6)
  let cksm := (buf3.drop 2).foldl Checksum.push Checksum.new
  let buf4 := buf3.take (LEN + 6) ++ [(cksm.take).1.1, (cksm.take).1.2]
  pure (LEN + FRAME_OVERHEAD, buf4 ++ buf.drop (LEN + FRAME_OVERHEAD))

/-- A complete valid wire message as the spec's section 6 table lays it
out: sync word, class, id, little-endian 16-bit payload length, the
payload, then the two checksum bytes covering class through end of
payload.  Written from the spec's words, to be compared with
`Frame.into_framed_vec`. -/
def wireBytes (c i : Nat) (p : List Nat) : List Nat :=
  let body := [c, i, p.length % 256, p.length / 256 % 256] ++ p
  let cksm := body.foldl Checksum.push Checksum.new
  [0xB5, 0x62] ++ body ++ [cksm.ck_a, cksm.ck_b]

/-! ### Message types and dispatch

Little-endian field readers mirroring the sequential `bytes::Buf`
reads (`get_u8`, `get_u16_le`, `get_u32_le`, ...) at their fixed
offsets; signed fields are decoded with the two's-complement reading
of the corresponding unsigned value. -/

/-- Byte at offset `k` of a buffer (the `u8` read of `bytes::Buf`). -/
def u8at (bs : List Nat) (k : Nat) : Nat := bs.getD k 0

/-- Little-endian `u16` at offset `k`. -/
def u16leAt (bs : List Nat) (k : Nat) : Nat :=
  u8at bs k + 256 * u8at bs (k + 1)

/-- Little-endian `u32` at offset `k`. -/
def u32leAt (bs : List Nat) (k : Nat) : Nat :=
  u8at bs k + 256 * u8at bs (k + 1) + 65536 * u8at bs (k + 2) +
    16777216 * u8at bs (k + 3)

/-- Two's-complement `i8` reinterpretation of an unsigned value. -/
def asI8 (u : Nat) : Int :=
  if u % 256 < 128 then (u % 256 : Nat) else (u % 256 : Nat) - 256

/-- Two's-complement `i16` reinterpretation of an unsigned value. -/
def asI16 (u : Nat) : Int :=
  if u % 65536 < 32768 then (u % 65536 : Nat) else (u % 65536 : Nat) - 65536

/-- Two's-complement `i32` reinterpretation of an unsigned value. -/
def asI32 (u : Nat) : Int :=
  if u % 4294967296 < 2147483648 then (u % 4294967296 : Nat)
  else (u % 4294967296 : Nat) - 4294967296

/-- Embeds `Ack` (ack/mod.rs): acknowledged message's class and id.
The Rust field `class` is named `cls` (Lean keyword). -/
structure Ack where
  cls : Nat
  id : Nat
deriving DecidableEq, Repr

/-- `Ack::CLASS` -/
def Ack.CLASS : Nat := 0x05
/-- `Ack::ID` -/
def Ack.ID : Nat := 0x01
/-- `Ack::LEN` -/
def Ack.LEN : Nat := 2

/-- Embeds `Ack::deserialize`: fails if fewer than `LEN` bytes remain,
otherwise reads two `u8`s. -/
def Ack.deserialize (src : List Nat) : Except Unit Ack :=
  if src.length < Ack.LEN then .error ()
  else .ok ⟨u8at src 0, u8at src 1⟩

/-- Embeds `Nak` (ack/mod.rs). -/
structure Nak where
  cls : Nat
  id : Nat
deriving DecidableEq, Repr

/-- `Nak::CLASS` -/
def Nak.CLASS : Nat := 0x05
/-- `Nak::ID` -/
def Nak.ID : Nat := 0x00
/-- `Nak::LEN` -/
def Nak.LEN : Nat := 2

/-- Embeds `Nak::deserialize`. -/
def Nak.deserialize (src : List Nat) : Except Unit Nak :=
  if src.length < Nak.LEN then .error ()
  else .ok ⟨u8at src 0, u8at src 1⟩

/-- Embeds `AckNak` (ack/mod.rs): the ACK-class sum type. -/
inductive AckNak where
  | Ack (a : Ack) : AckNak
  | Nak (n : Nak) : AckNak
deriving DecidableEq, Repr

/-- `AckNak::CLASS` -/
def AckNak.CLASS : Nat := 0x05

/-- Embeds `AckNak::from_frame` (ack/mod.rs lines 23-37): reject a
foreign class, then match `(class, id, message.len())` against each
member type's `(CLASS, ID, LEN)` triple — an exact length match — and
deserialize on a hit; everything else is `Err(())`. -/
def AckNak.from_frame (fr : Frame) : Except Unit AckNak :=
  if fr.cls ≠ AckNak.CLASS then .error ()
  else if fr.cls = Ack.CLASS ∧ fr.id = Ack.ID ∧ fr.message.length = Ack.LEN then
    (Ack.deserialize fr.message).map AckNak.Ack
  else if fr.cls = Nak.CLASS ∧ fr.id = Nak.ID ∧ fr.message.length = Nak.LEN then
    (Nak.deserialize fr.message).map AckNak.Nak
  else .error ()

/-- Embeds `SetMsgRates` (cfg/msg.rs). -/
structure SetMsgRates where
  cls : Nat
  id : Nat
  ddc : Nat
  uart1 : Nat
  usb : Nat
  spi : Nat
deriving DecidableEq, Repr

/-- `SetMsgRates::CLASS` -/
def SetMsgRates.CLASS : Nat := 0x06
/-- `SetMsgRates::ID` -/
def SetMsgRates.ID : Nat := 0x01
/-- `SetMsgRates::LEN` -/
def SetMsgRates.LEN : Nat := 8

/-- Embeds `SetMsgRates::deserialize`: six `u8` fields followed by two
reserved bytes that are read and discarded. -/
def SetMsgRates.deserialize (src : List Nat) : Except Unit SetMsgRates :=
  if src.length < SetMsgRates.LEN then .error ()
  else .ok ⟨u8at src 0, u8at src 1, u8at src 2, u8at src 3, u8at src 4,
    u8at src 5⟩

/-- Embeds `Cfg` (cfg/mod.rs): the CFG-class sum type. -/
inductive Cfg where
  | SetMsgRates (m : SetMsgRates) : Cfg
deriving DecidableEq, Repr

/-- `Cfg::CLASS` -/
def Cfg.CLASS : Nat := 0x06

/-- Embeds `Cfg::from_frame` (cfg/mod.rs): reject a foreign class, then
match the exact `(CLASS, ID, LEN)` triple.  The decoder the source
names (`SetMsgRates::parse`) is the type's deserializer from cfg/msg.rs. -/
def Cfg.from_frame (fr : Frame) : Except Unit Cfg :=
  if fr.cls ≠ Cfg.CLASS then .error ()
  else if fr.cls = SetMsgRates.CLASS ∧ fr.id = SetMsgRates.ID ∧
      fr.message.length = SetMsgRates.LEN then
    (SetMsgRates.deserialize fr.message).map Cfg.SetMsgRates
  else .error ()

/-- Embeds `TimeGps` (nav/timegps.rs).  Unsigned primitives (`U4`,
`X1`) are `Nat`; signed ones (`I4`, `I2`, `I1`) are `Int`. -/
structure TimeGps where
  iTOW : Nat
  fTOW : Int
  week : Int
  leapS : Int
  valid : Nat
  tAcc : Nat
deriving DecidableEq, Repr

/-- `TimeGps::CLASS` -/
def TimeGps.CLASS : Nat := 0x01
/-- `TimeGps::ID` -/
def TimeGps.ID : Nat := 0x20
/-- `TimeGps::LEN` -/
def TimeGps.LEN : Nat := 16

/-- Embeds `TimeGps::deserialize`: sequential little-endian reads
(`u32`, `i32`, `i16`, `i8`, `u8`, `u32`) at offsets 0,4,8,10,11,12. -/
def TimeGps.deserialize (src : List Nat) : Except Unit TimeGps :=
  if src.length < TimeGps.LEN then .error ()
  else .ok ⟨u32leAt src 0, asI32 (u32leAt src 4), asI16 (u16leAt src 8),
    asI8 (u8at src 10), u8at src 11, u32leAt src 12⟩

/-- Embeds `Pvt` (nav/pvt.rs).  The bitfield wrapper types (`Valid`,
`Flags`, `Flags2`) wrap a single `u8` and are modelled as the wrapped
byte. -/
structure Pvt where
  TOW : Nat
  year : Nat
  month : Nat
  day : Nat
  hour : Nat
  min : Nat
  sec : Nat
  valid : Nat
  tAcc : Nat
  nano : Int
  fxType : Nat
  flags : Nat
  flags2 : Nat
  numSV : Nat
  lon : Int
  lat : Int
  height : Int
  hMSL : Int
  hAcc : Nat
  vAcc : Nat
  velN : Int
  velE : Int
  velD : Int
  gSpeed : Int
  headMot : Int
  sAcc : Nat
  headAcc : Nat
  pDOP : Nat
  flags3 : Nat
  headVeh : Int
  magDec : Int
  macAcc : Nat
deriving DecidableEq, Repr

/-- `Pvt::CLASS` -/
def Pvt.CLASS : Nat := 0x01
/-- `Pvt::ID` -/
def Pvt.ID : Nat := 0x07
/-- `Pvt::LEN` -/
def Pvt.LEN : Nat := 92

/-- Embeds `Pvt::deserialize`: sequential little-endian reads at the
fixed offsets of the 92-byte UBX-NAV-PVT layout; the five reserved
bytes at offsets 79..83 are advanced over and discarded. -/
def Pvt.deserialize (src : List Nat) : Except Unit Pvt :=
  if src.length < Pvt.LEN then .error ()
  else .ok ⟨u32leAt src 0, u16leAt src 4, u8at src 6, u8at src 7, u8at src 8,
    u8at src 9, u8at src 10, u8at src 11, u32leAt src 12,
    asI32 (u32leAt src 16), u8at src 20, u8at src 21, u8at src 22,
    u8at src 23, asI32 (u32leAt src 24), asI32 (u32leAt src 28),
    asI32 (u32leAt src 32), asI32 (u32leAt src 36), u32leAt src 40,
    u32leAt src 44, asI32 (u32leAt src 48), asI32 (u32leAt src 52),
    asI32 (u32leAt src 56), asI32 (u32leAt src 60), asI32 (u32leAt src 64),
    u32leAt src 68, u32leAt src 72, u16leAt src 76, u8at src 78,
    asI32 (u32leAt src 84), asI16 (u16leAt src 88), u16leAt src 90⟩

/-- Embeds `Nav` (nav/mod.rs): the NAV-class sum type. -/
inductive Nav where
  | TimeGps (m : TimeGps) : Nav
  | Pvt (m : Pvt) : Nav
deriving DecidableEq, Repr

/-- `Nav::CLASS` -/
def Nav.CLASS : Nat := 0x01

/-- Embeds `Nav::from_frame` (nav/mod.rs lines 29-47): reject a foreign
class, then match each member's exact `(CLASS, ID, LEN)` triple.  The
decoders the source names (`TimeGps::parse`, `Pvt::parse`) are the
types' deserializers from timegps.rs and pvt.rs. -/
def Nav.from_frame (fr : Frame) : Except Unit Nav :=
  if fr.cls ≠ Nav.CLASS then .error ()
  else if fr.cls = TimeGps.CLASS ∧ fr.id = TimeGps.ID ∧
      fr.message.length = TimeGps.LEN then
    (TimeGps.deserialize fr.message).map Nav.TimeGps
  else if fr.cls = Pvt.CLASS ∧ fr.id = Pvt.ID ∧
      fr.message.length = Pvt.LEN then
    (Pvt.deserialize fr.message).map Nav.Pvt
  else .error ()

/-- Embeds `Msg` (messages/mod.rs): the top-level sum of recognized
u-blox messages. -/
inductive Msg where
  | AckNak (m : AckNak) : Msg
  | Cfg (m : Cfg) : Msg
  | Nav (m : Nav) : Msg
deriving DecidableEq, Repr

/-- Embeds `Msg::from_frame` (messages/mod.rs lines 24-31): route by
the frame's class to the per-class `from_frame`, in the source's match
order (CFG, NAV, ACK), and reject any other class. -/
def Msg.from_frame (fr : Frame) : Except Unit Msg :=
  if fr.cls = Cfg.CLASS then (Cfg.from_frame fr).map Msg.Cfg
  else if fr.cls = Nav.CLASS then (Nav.from_frame fr).map Msg.Nav
  else if fr.cls = AckNak.CLASS then (AckNak.from_frame fr).map Msg.AckNak
  else .error ()

/-! ### Helper lemmas -/

/-- `pushAll` on the empty list. -/
lemma pushAll_nil (d : Deframer) : pushAll d [] = ([], d) := rfl

/-- `pushAll` on a cons: push the head, then the rest from the
successor state. -/
lemma pushAll_cons (d : Deframer) (b : Nat) (rest : List Nat) :
    pushAll d (b :: rest) =
      ((d.push b).1 :: (pushAll (d.push b).2 rest).1,
        (pushAll (d.push b).2 rest).2) := rfl

/-- The `u16` shift-register update expressed arithmetically: shifting
the old value left by 8 (mod `2^16`) and or-ing in a byte keeps the old
value's low byte as the new high byte and the input as the low byte. -/
lemma syncAccumUpdate (x b : Nat) (hb : b < 256) :
    ((x <<< 8) % 65536) ||| b = (x % 256) * 256 + b := by
  have h1 : x <<< 8 = x * 256 := by
    simpa using Nat.shiftLeft_eq x 8
  have h2 : (x * 256) % 65536 = (x % 256) * 256 := by
    have := Nat.mul_mod_mul_right 256 x 256
    simpa [Nat.mul_comm] using this
  have h3 : (2 : Nat) ^ 8 * (x % 256) + b = 2 ^ 8 * (x % 256) ||| b :=
    Nat.mul_add_lt_is_or (by simpa using hb) (x % 256)
  rw [h1, h2]
  calc (x % 256) * 256 ||| b = 2 ^ 8 * (x % 256) ||| b := by ring_nf
    _ = 2 ^ 8 * (x % 256) + b := (h3).symm
    _ = (x % 256) * 256 + b := by ring

/-- The `usize` length assembly expressed arithmetically. -/
lemma lenAssemble (m l : Nat) (hl : l < 256) :
    (m <<< 8) ||| l = m * 256 + l := by
  have h1 : m <<< 8 = m * 256 := by
    simpa using Nat.shiftLeft_eq m 8
  have h3 : (2 : Nat) ^ 8 * m + l = 2 ^ 8 * m ||| l :=
    Nat.mul_add_lt_is_or (by simpa using hl) m
  rw [h1]
  calc m * 256 ||| l = 2 ^ 8 * m ||| l := by ring_nf
    _ = 2 ^ 8 * m + l := (h3).symm
    _ = m * 256 + l := by ring

/-- A `Sync`-state push that does not complete the sync word. -/
lemma push_Sync_miss (a n b : Nat) (hb : b < 256)
    (h : ¬(a % 256 = 0xB5 ∧ b = 0x62)) :
    Deframer.push (.Sync a n) b =
      (.ok none, .Sync ((a % 256) * 256 + b) (n + 1)) := by
  have hacc := syncAccumUpdate a b hb
  have hne : (a % 256) * 256 + b ≠ 0xB562 := by
    intro hEq
    exact h (by omega)
  simp [Deframer.push, hacc, hne]

/-- A `Sync`-state push that completes the sync word. -/
lemma push_Sync_hit (a n : Nat) (h : a % 256 = 0xB5) :
    Deframer.push (.Sync a n) 0x62 = (.ok none, .Class) := by
  have hacc := syncAccumUpdate a 0x62 (by omega)
  simp [Deframer.push, hacc, h]

/-- Feeding a payload byte that does not yet fill the buffer. -/
lemma push_Message_mid (cls id len : Nat) (msg : List Nat) (cks : Checksum)
    (b : Nat) (h : msg.length + 1 ≠ len) :
    Deframer.push (.Message cls id len msg cks) b =
      (.ok none, .Message cls id len (msg ++ [b]) (cks.push b)) := by
  simp [Deframer.push, h]

/-- Feeding the payload byte that fills the buffer finalizes the
running checksum and moves to `CkA`. -/
lemma push_Message_last (cls id len : Nat) (msg : List Nat) (cks : Checksum)
    (b : Nat) (h : msg.length + 1 = len) :
    Deframer.push (.Message cls id len msg cks) b =
      (.ok none, .CkA cls id (msg ++ [b]) (((cks.push b).take).1)) := by
  simp [Deframer.push, h]

/-- `pushAll` over an appended list splits at the boundary. -/
lemma pushAll_append (d : Deframer) (xs ys : List Nat) :
    pushAll d (xs ++ ys) =
      ((pushAll d xs).1 ++ (pushAll (pushAll d xs).2 ys).1,
        (pushAll (pushAll d xs).2 ys).2) := by
  induction xs generalizing d with
  | nil => simp [pushAll_nil]
  | cons b rest ih => simp [pushAll_cons, ih]

/-- `Class`-state push: the byte is the class; it seeds the checksum. -/
lemma push_Class (b : Nat) :
    Deframer.push .Class b = (.ok none, .Id b (Checksum.with' b)) := rfl

/-- `Id`-state push. -/
lemma push_Id (cls : Nat) (cks : Checksum) (b : Nat) :
    Deframer.push (.Id cls cks) b =
      (.ok none, .LengthLsb cls b (cks.push b)) := rfl

/-- `LengthLsb`-state push. -/
lemma push_LengthLsb (cls id : Nat) (cks : Checksum) (b : Nat) :
    Deframer.push (.LengthLsb cls id cks) b =
      (.ok none, .LengthMsb cls id b (cks.push b)) := rfl

/-- `LengthMsb`-state push when the assembled length is within the
ceiling: allocate an empty buffer and move to `Message`. -/
lemma push_LengthMsb_ok (cls id lb : Nat) (cks : Checksum) (b : Nat)
    (h : (b <<< 8) ||| lb ≤ 999) :
    Deframer.push (.LengthMsb cls id lb cks) b =
      (.ok none, .Message cls id ((b <<< 8) ||| lb) [] (cks.push b)) := by
  simp only [Deframer.push]
  rw [if_neg (by omega)]

/-- `CkA`-state push with the matching first checksum byte. -/
lemma push_CkA_ok (cls id : Nat) (msg : List Nat) (ck : Nat × Nat) :
    Deframer.push (.CkA cls id msg ck) ck.1 =
      (.ok none, .CkB cls id msg ck) := by
  simp [Deframer.push]

/-- `CkB`-state push with the matching second checksum byte. -/
lemma push_CkB_ok (cls id : Nat) (msg : List Nat) (ck : Nat × Nat) :
    Deframer.push (.CkB cls id msg ck) ck.2 =
      (.ok (some ⟨cls, id, msg⟩), Deframer.new) := by
  simp [Deframer.push]

/-- Feeding the whole remaining payload from a partially filled
`Message` state: every byte yields `Ok(None)` and the final byte moves
to `CkA` carrying the accumulated message and the finalized checksum. -/
lemma pushAll_payload (cls id len : Nat) :
    ∀ (q msgAcc : List Nat) (cks : Checksum), q ≠ [] →
      msgAcc.length + q.length = len →
      pushAll (.Message cls id len msgAcc cks) q =
        (List.replicate q.length (.ok none),
         .CkA cls id (msgAcc ++ q) (((q.foldl Checksum.push cks).take).1)) := by
  intro q
  induction q with
  | nil => intro _ _ h _; exact absurd rfl h
  | cons b rest ih =>
      intro msgAcc cks _ hlen
      cases rest with
      | nil =>
          have hfill : msgAcc.length + 1 = len := by
            simpa using hlen
          rw [pushAll_cons, push_Message_last cls id len msgAcc cks b hfill]
          simp [pushAll_nil]
      | cons r rs =>
          have hmid : msgAcc.length + 1 ≠ len := by
            simp at hlen; omega
          have hrec := ih (msgAcc ++ [b]) (cks.push b) (by simp)
            (by simp at hlen ⊢; omega)
          rw [pushAll_cons, push_Message_mid cls id len msgAcc cks b hmid]
          simp only [hrec, List.replicate_succ, List.length_cons]
          simp [List.append_assoc]

/-- Rewriting form of `pushAll_cons` with the push result supplied. -/
lemma pushAll_cons_eq (d : Deframer) (b : Nat) (rest : List Nat)
    (r : Except FrameError (Option Frame)) (d' : Deframer)
    (h : d.push b = (r, d')) :
    pushAll d (b :: rest) =
      (r :: (pushAll d' rest).1, (pushAll d' rest).2) := by
  rw [pushAll_cons, h]

/-- Feeding a complete valid wire message from any `Sync` state: every
byte up to the last yields `Ok(None)` and the final checksum byte
yields the completed frame, leaving the deframer back at the initial
state. -/
lemma pushAll_wire (a n c i : Nat) (p : List Nat) (hne : p ≠ [])
    (hlen : p.length ≤ 999) :
    pushAll (.Sync a n) (wireBytes c i p) =
      (List.replicate (p.length + 7) (.ok none) ++ [.ok (some ⟨c, i, p⟩)],
        Deframer.new) := by
  have hlo : p.length % 256 < 256 := Nat.mod_lt _ (by omega)
  have hassem :
      ((p.length / 256 % 256) <<< 8) ||| (p.length % 256) = p.length := by
    rw [lenAssemble _ _ hlo]
    omega
  have hlen999 : ((p.length / 256 % 256) <<< 8) ||| (p.length % 256) ≤ 999 := by
    rw [hassem]; exact hlen
  simp only [wireBytes, List.cons_append, List.nil_append, List.append_assoc]
  rw [pushAll_cons_eq _ _ _ _ _
      (push_Sync_miss a n 0xB5 (by omega) (by omega))]
  rw [pushAll_cons_eq _ _ _ _ _
      (push_Sync_hit ((a % 256) * 256 + 0xB5) (n + 1) (by omega))]
  rw [pushAll_cons_eq _ _ _ _ _ (push_Class c)]
  rw [pushAll_cons_eq _ _ _ _ _ (push_Id c _ i)]
  rw [pushAll_cons_eq _ _ _ _ _ (push_LengthLsb c i _ (p.length % 256))]
  rw [pushAll_cons_eq _ _ _ _ _
      (push_LengthMsb_ok c i (p.length % 256) _ (p.length / 256 % 256)
        hlen999)]
  rw [hassem]
  rw [pushAll_append]
  rw [pushAll_payload c i p.length p [] _ hne (by simp)]
  have hfold : List.foldl Checksum.push
      ((((Checksum.with' c).push i).push (p.length % 256)).push
        (p.length / 256 % 256)) p =
      List.foldl Checksum.push Checksum.new
        ([c, i, p.length % 256, p.length / 256 % 256] ++ p) := by
    rw [List.foldl_append]
    rfl
  rw [List.nil_append, hfold]
  set X := List.foldl Checksum.push Checksum.new
    ([c, i, p.length % 256, p.length / 256 % 256] ++ p) with hX
  have htake : (X.take).1 = (X.ck_a, X.ck_b) := rfl
  rw [htake]
  rw [pushAll_cons_eq _ _ _ _ _
      (by simpa using push_CkA_ok c i p (X.ck_a, X.ck_b))]
  rw [pushAll_cons_eq _ _ _ _ _
      (by simpa using push_CkB_ok c i p (X.ck_a, X.ck_b))]
  rw [pushAll_nil]
  have h7 : p.length + 7 = 6 + (p.length + 1) := by omega
  rw [h7, List.replicate_add, List.replicate_succ']
  simp [List.replicate_succ', List.append_assoc]

/-- The spec's wire layout coincides with the encoder's output whenever
the payload length fits the 16-bit length field. -/
lemma wireBytes_eq_into_framed_vec (c i : Nat) (p : List Nat)
    (h : p.length < 65536) :
    wireBytes c i p = Frame.into_framed_vec ⟨c, i, p⟩ := by
  have h1 : p.length % 65536 = p.length := Nat.mod_eq_of_lt h
  have h2 : p.length / 256 % 256 = p.length / 256 := by omega
  simp only [Frame.into_framed_vec, wireBytes, h1, h2]
  rfl

/-- If pushing a byte list yields `Ok(None)` on every byte but the
last and a frame on the last, then the one-shot loop returns exactly
that frame. -/
lemma deframeLoop_of_single_frame :
    ∀ (bs : List Nat) (d : Deframer) (f : Frame),
      (pushAll d bs).1 =
        List.replicate (bs.length - 1) (.ok none) ++ [.ok (some f)] →
      deframeLoop d bs = .ok (some f) := by
  intro bs
  induction bs with
  | nil =>
      intro d f h
      simp [pushAll_nil] at h
  | cons b rest ih =>
      intro d f h
      rw [pushAll_cons] at h
      cases rest with
      | nil =>
          simp only [pushAll_nil, List.length_cons, List.length_nil,
            Nat.add_sub_cancel, List.replicate, List.nil_append] at h
          rw [deframeLoop]
          rcases hpush : d.push b with ⟨r0, d'⟩
          rw [hpush] at h
          simp only [List.cons.injEq, and_true] at h
          subst h
          simp
      | cons r rs =>
          rw [show (b :: r :: rs).length - 1 = (r :: rs).length - 1 + 1 by
            simp, List.replicate_succ, List.cons_append,
            List.cons.injEq] at h
          have hrec := ih (d.push b).2 f h.2
          rw [deframeLoop]
          rcases hpush : d.push b with ⟨r0, d'⟩
          rw [hpush] at h hrec
          obtain ⟨h1, -⟩ := h
          simp only at h1
          subst h1
          simpa using hrec

/-- Scanning noise: from a `Sync` state whose shift register's low
byte together with the incoming bytes never contains the two-byte sync
word at adjacent positions, every pushed byte yields `Ok(None)` and
the deframer stays in `Sync`, its shift register following the bytes
and its byte counter advancing. -/
lemma pushAll_noise :
    ∀ (bs : List Nat) (a n : Nat), (∀ b ∈ bs, b < 256) →
      List.Chain' (fun x y => ¬(x = 0xB5 ∧ y = 0x62)) ((a % 256) :: bs) →
      pushAll (.Sync a n) bs =
        (List.replicate bs.length (.ok none),
          .Sync (bs.foldl (fun acc b => (acc % 256) * 256 + b) a)
            (n + bs.length)) := by
  intro bs
  induction bs with
  | nil => intro a n _ _; simp [pushAll_nil]
  | cons b rest ih =>
      intro a n hb hch
      rw [List.chain'_cons] at hch
      have hblt : b < 256 := hb b (by simp)
      have hmod : ((a % 256) * 256 + b) % 256 = b := by omega
      have hchain' : List.Chain'
          (fun x y => ¬(x = 0xB5 ∧ y = 0x62))
          ((((a % 256) * 256 + b) % 256) :: rest) := by
        rw [hmod]
        exact hch.2
      have hrec := ih ((a % 256) * 256 + b) (n + 1)
        (fun x hx => hb x (by simp [hx])) hchain'
      rw [pushAll_cons_eq _ _ _ _ _ (push_Sync_miss a n b hblt hch.1), hrec]
      simp [List.replicate_succ]
      omega

/-- The one-shot loop never surfaces an error: every push result other
than a completed frame (errors included) is discarded. -/
lemma deframeLoop_isOk :
    ∀ (bs : List Nat) (d : Deframer), ∃ o, deframeLoop d bs = .ok o := by
  intro bs
  induction bs with
  | nil => intro d; exact ⟨none, rfl⟩
  | cons b rest ih =>
      intro d
      rw [deframeLoop]
      rcases hpush : d.push b with ⟨r, d'⟩
      rcases r with e | of
      · simpa using ih d'
      · rcases of with - | f
        · simpa using ih d'
        · exact ⟨some f, rfl⟩

/-- The length of a complete wire message: payload plus 8 overhead
bytes (sync word, class, id, two length bytes, two checksum bytes). -/
lemma wireBytes_length (c i : Nat) (p : List Nat) :
    (wireBytes c i p).length = p.length + 8 := by
  simp [wireBytes]
  try omega

/-- `deframe` returns the frame when feeding the bytes emits `Ok(None)`
on every byte but the last and the frame on the last byte. -/
lemma deframe_wire (c i : Nat) (p : List Nat) (hne : p ≠ [])
    (h2 : p.length ≤ 999) :
    deframe (wireBytes c i p) = .ok (some ⟨c, i, p⟩) := by
  apply deframeLoop_of_single_frame
  rw [show Deframer.new = Deframer.Sync 0 0 from rfl,
    pushAll_wire 0 0 c i p hne h2, wireBytes_length,
    show p.length + 8 - 1 = p.length + 7 by omega]

/-! ### Claims -/

/-- Claim C1, amended to payloads of length 1 through 999: encoding a
frame with `Frame::into_framed_vec` and deframing the result (as the
one-shot `deframe` does) returns exactly the original frame; and the
frame deframed from a valid wire byte string re-encodes byte-for-byte
to that same wire string.  The original claim's bound "payload length
≤ capacity" admits the empty payload, on which the round trip fails
(see the counterexample): the `Message` state tests `message.len() ==
len` only after pushing a byte, so a declared length of zero can never
be satisfied. -/
theorem C1_round_trip (c i : Nat) (p : List Nat) (h1 : 1 ≤ p.length)
    (h2 : p.length ≤ 999) :
    deframe (Frame.into_framed_vec ⟨c, i, p⟩) = .ok (some ⟨c, i, p⟩) ∧
    ∀ fr : Frame, deframe (wireBytes c i p) = .ok (some fr) →
      fr.into_framed_vec = wireBytes c i p := by
  have hne : p ≠ [] := by
    intro h
    subst h
    simp at h1
  have hdec := deframe_wire c i p hne h2
  constructor
  · rw [← wireBytes_eq_into_framed_vec c i p (by omega)]
    exact hdec
  · intro fr hfr
    rw [hdec] at hfr
    simp only [Except.ok.injEq, Option.some.injEq] at hfr
    rw [← hfr, ← wireBytes_eq_into_framed_vec c i p (by omega)]

/-- Claim C1 witness: the round trip at class 5, id 1, payload `[6]`. -/
theorem C1_round_trip_witness :
    deframe (Frame.into_framed_vec ⟨5, 1, [6]⟩) = .ok (some ⟨5, 1, [6]⟩) ∧
    ∀ fr : Frame, deframe (wireBytes 5 1 [6]) = .ok (some fr) →
      fr.into_framed_vec = wireBytes 5 1 [6] :=
  C1_round_trip 5 1 [6] (by decide) (by decide)

/-- Claim C1 counterexample: for the empty payload — allowed by the
claim, which only requires payload length ≤ capacity — deframing the
encoding of `Frame { class: 5, id: 1, message: [] }` yields no frame
at all, so `decode(encode(x)) = x` fails. -/
theorem C1_round_trip_counterexample :
    deframe (Frame.into_framed_vec ⟨0x05, 0x01, []⟩) = .ok none := by rfl

/-- Claim C2, amended to declared lengths 1 through 999: feeding a
complete valid wire message byte-at-a-time to a fresh deframer yields
`Ok(None)` on each of the first `len + 7` bytes and `Ok(Some(frame))`
with the declared class, id and payload on the final byte.  The
original claim admits zero-length messages, on which the final byte
also yields `Ok(None)` (see the counterexample). -/
theorem C2_byte_at_a_time (c i : Nat) (p : List Nat) (h1 : 1 ≤ p.length)
    (h2 : p.length ≤ 999) :
    (pushAll Deframer.new (wireBytes c i p)).1 =
      List.replicate (p.length + 7) (.ok none) ++ [.ok (some ⟨c, i, p⟩)] := by
  rw [show Deframer.new = Deframer.Sync 0 0 from rfl,
    pushAll_wire 0 0 c i p (by intro h; subst h; simp at h1) h2]

/-- Claim C2 witness: the 9-byte message with payload `[6]`. -/
theorem C2_byte_at_a_time_witness :
    (pushAll Deframer.new (wireBytes 5 1 [6])).1 =
      List.replicate 8 (.ok none) ++ [.ok (some ⟨5, 1, [6]⟩)] :=
  C2_byte_at_a_time 5 1 [6] (by decide) (by decide)

/-- Claim C2 counterexample: the complete valid wire message with
class 6, id 1 and declared length 0 (8 bytes ending in its correct
checksum) yields `Ok(None)` on every byte, including the final one —
no completed Envelope is ever produced. -/
theorem C2_byte_at_a_time_counterexample :
    (pushAll Deframer.new (wireBytes 0x06 0x01 [])).1 =
      List.replicate 8 (.ok none) := by rfl

/-- Byte image of `Prt::Uart { tx_ready: 0, mode: 0, baud_rate: 9600,
in_proto_mask: 0, out_proto_mask: 0, flags: 0 }` under `Prt::to_bytes`
(cfg/prt.rs): port id 1, a reserved byte, `tx_ready` (u16 LE), `mode`
(u32 LE), `baud_rate` (u32 LE), the two masks and `flags` (u16 LE
each), and two reserved bytes. -/
def prtUartImage : List Nat :=
  [1, 0, 0, 0, 0, 0, 0, 0, 0x80, 0x25, 0, 0, 0, 0, 0, 0, 0, 0, 0, 0]

/-- The buffer `frame` produces for `prtUartImage` in a zeroed 28-byte
output buffer. -/
def c3Output : List Nat :=
  [0xB5, 0x62, 0x06, 0x00, 20, 0, 1, 0, 0, 0, 0, 0, 0, 0, 0x80, 0x25,
    0, 0, 0, 0, 0, 0, 0, 0, 0, 0, 192, 115]

/-- Claim C3: the checksum bytes `frame` writes at offsets `LEN+6` and
`LEN+7` do NOT equal the Fletcher checksum over offsets `2 .. LEN+6`
of the output.  The encoder's checksum loop `for b in
buf.iter().skip(2)` runs over the whole truncated buffer — including
the two not-yet-written (stale) bytes at the checksum positions — so
with `Prt::Uart` at baud 9600 in a zeroed buffer it stores `(192, 115)`
where the checksum of class through end of payload is `(192, 243)`.
This contradicts the function's own comment ("calculated from class to
end of message") and `Frame::into_framed_vec`, which computes the same
scope correctly. -/
theorem C3_frame_checksum_scope :
    frame 20 0x06 0x00 (fun _ => .ok prtUartImage) (List.replicate 28 0) =
      .ok (28, c3Output) ∧
    (u8at c3Output 26, u8at c3Output 27) ≠
      ((((c3Output.take 26).drop 2).foldl Checksum.push Checksum.new).ck_a,
        (((c3Output.take 26).drop 2).foldl Checksum.push Checksum.new).ck_b) :=
  ⟨by rfl, by decide⟩

/-- Claim C4: the concrete 9-byte vector `[B5 62 05 01 01 00 06 0D 26]`
fed byte-by-byte yields `Ok(None)` on the first eight bytes and the
Envelope (class 5, id 1, message `[6]`) on the ninth, leaving the
deframer back in its initial state. -/
theorem C4_concrete_vector :
    pushAll Deframer.new [0xB5, 0x62, 0x05, 0x01, 0x01, 0x00, 0x06, 0x0D, 0x26] =
      (List.replicate 8 (.ok none) ++ [.ok (some ⟨0x05, 0x01, [0x06]⟩)],
        Deframer.new) := by rfl

/-- Claim C5, amended to subsequent messages of declared length 1
through 999: a byte differing from the first computed checksum byte in
state `CkA` — even one equal to the second — or a byte differing from
the second computed checksum byte in state `CkB` makes `push` return
`Err(Checksum)` with no Envelope and resets the deframer to the
initial `Sync` state (`Deframer.new`); a subsequent valid message of
length 1..999 fed to that state — with no reset call — yields its
Envelope on its final byte.  The original claim's "a subsequent valid
message" also covers zero-length valid messages, which never complete
an Envelope (see the counterexample). -/
theorem C5_checksum_rejection (cls id input : Nat) (msgb : List Nat)
    (ck : Nat × Nat) (c i : Nat) (p : List Nat)
    (h1 : 1 ≤ p.length) (h2 : p.length ≤ 999) :
    (input ≠ ck.1 →
      Deframer.push (.CkA cls id msgb ck) input =
        (.error .Checksum, Deframer.new)) ∧
    (input ≠ ck.2 →
      Deframer.push (.CkB cls id msgb ck) input =
        (.error .Checksum, Deframer.new)) ∧
    pushAll Deframer.new (wireBytes c i p) =
      (List.replicate (p.length + 7) (.ok none) ++ [.ok (some ⟨c, i, p⟩)],
        Deframer.new) := by
  refine ⟨fun hA => ?_, fun hB => ?_, ?_⟩
  · simp [Deframer.push, hA]
  · simp [Deframer.push, hB]
  · exact pushAll_wire 0 0 c i p (by intro h; subst h; simp at h1) h2

/-- Claim C5 witness, at the computed checksum (13, 38) of the
concrete test vector: state `CkA` rejects the byte 38 (which equals
the *second* checksum byte but differs from the first), state `CkB`
rejects the byte 13 (the spec's flipped-final-byte scenario), and the
valid message for class 5, id 1, payload `[6]` then completes from the
reset state. -/
theorem C5_checksum_rejection_witness :
    Deframer.push (.CkA 5 1 [6] (13, 38)) 38 =
      (.error .Checksum, Deframer.new) ∧
    Deframer.push (.CkB 5 1 [6] (13, 38)) 13 =
      (.error .Checksum, Deframer.new) ∧
    pushAll Deframer.new (wireBytes 5 1 [6]) =
      (List.replicate 8 (.ok none) ++ [.ok (some ⟨5, 1, [6]⟩)],
        Deframer.new) :=
  ⟨(C5_checksum_rejection 5 1 38 [6] (13, 38) 5 1 [6] (by decide)
      (by decide)).1 (by decide),
    (C5_checksum_rejection 5 1 13 [6] (13, 38) 5 1 [6] (by decide)
      (by decide)).2.1 (by decide),
    (C5_checksum_rejection 5 1 13 [6] (13, 38) 5 1 [6] (by decide)
      (by decide)).2.2⟩

/-- Claim C5 counterexample: after a `CkB` mismatch (the concrete
vector's final checksum byte flipped to 13, the first computed byte)
the deframer is reset, but the *subsequent valid message* with class
6, id 0 and declared length 0 — fed to exactly that reset state —
returns `Ok(None)` on every one of its 8 bytes and never yields its
Envelope, so the original claim's final clause fails. -/
theorem C5_checksum_rejection_counterexample :
    Deframer.push (.CkB 5 1 [6] (13, 38)) 13 =
      (.error .Checksum, Deframer.new) ∧
    (pushAll Deframer.new (wireBytes 6 0 [])).1 =
      List.replicate 8 (.ok none) := by
  exact ⟨by rfl, by rfl⟩

/-- Claim C6: when the high length byte completes a declared length
above the ceiling 999, `push` returns `Ok(None)` — neither an Envelope
nor an error — and the deframer reverts to the initial `Sync` state
(`Deframer.new`, i.e. `Sync { accum: 0, processed: 0 }`); no `Message`
buffer state is ever entered for the oversized declaration. -/
theorem C6_length_ceiling (cls id len_b0 input : Nat) (cks : Checksum)
    (h : 999 < (input <<< 8) ||| len_b0) :
    Deframer.push (.LengthMsb cls id len_b0 cks) input =
      (.ok none, Deframer.new) := by
  simp only [Deframer.push]
  rw [if_pos (by omega)]

/-- Claim C6 witness: high byte 4 with low byte 0 declares length 1024. -/
theorem C6_length_ceiling_witness :
    Deframer.push (.LengthMsb 0 0 0 Checksum.new) 4 = (.ok none, Deframer.new) :=
  C6_length_ceiling 0 0 0 4 Checksum.new (by decide)

/-- Claim C7: for every registered message type — Ack (5, 1, 2),
Nak (5, 0, 2), SetMsgRates (6, 1, 8), TimeGps (1, 0x20, 16),
Pvt (1, 7, 92) — a frame whose class and id match that type but whose
message byte count differs from its fixed `LEN` dispatches to
`Err(())`, not to a decoded message. -/
theorem C7_exact_length_dispatch (fr : Frame) :
    (fr.cls = Ack.CLASS → fr.id = Ack.ID → fr.message.length ≠ Ack.LEN →
      Msg.from_frame fr = .error ()) ∧
    (fr.cls = Nak.CLASS → fr.id = Nak.ID → fr.message.length ≠ Nak.LEN →
      Msg.from_frame fr = .error ()) ∧
    (fr.cls = SetMsgRates.CLASS → fr.id = SetMsgRates.ID →
      fr.message.length ≠ SetMsgRates.LEN → Msg.from_frame fr = .error ()) ∧
    (fr.cls = TimeGps.CLASS → fr.id = TimeGps.ID →
      fr.message.length ≠ TimeGps.LEN → Msg.from_frame fr = .error ()) ∧
    (fr.cls = Pvt.CLASS → fr.id = Pvt.ID → fr.message.length ≠ Pvt.LEN →
      Msg.from_frame fr = .error ()) := by
  refine ⟨fun hc hi hl => ?_, fun hc hi hl => ?_, fun hc hi hl => ?_,
    fun hc hi hl => ?_, fun hc hi hl => ?_⟩ <;>
  simp only [Ack.LEN, Nak.LEN, SetMsgRates.LEN, TimeGps.LEN, Pvt.LEN] at hl <;>
    simp [Msg.from_frame, AckNak.from_frame, Cfg.from_frame, Nav.from_frame,
      Ack.CLASS, Ack.ID, Ack.LEN, Nak.CLASS, Nak.ID, Nak.LEN,
      SetMsgRates.CLASS, SetMsgRates.ID, SetMsgRates.LEN,
      TimeGps.CLASS, TimeGps.ID, TimeGps.LEN, Pvt.CLASS, Pvt.ID, Pvt.LEN,
      AckNak.CLASS, Cfg.CLASS, Nav.CLASS, hc, hi, hl] <;> rfl

/-- Claim C7 witness: a frame with Ack's class and id but a 1-byte
message is not decoded. -/
theorem C7_exact_length_dispatch_witness :
    Msg.from_frame ⟨0x05, 0x01, [0]⟩ = .error () :=
  (C7_exact_length_dispatch ⟨0x05, 0x01, [0]⟩).1 rfl rfl (by decide)

/-- Claim C8, amended to following messages of declared length 1
through 999: a byte run containing no adjacent `B5 62` pair, fed from
the initial state, yields `Ok(None)` on every byte — never an error —
and leaves the deframer in a `Sync` state; and a valid message of
length 1..999 appended after such noise still completes exactly one
Envelope, on its final byte.  The original claim's "a valid message"
also covers zero-length valid messages, which complete no Envelope
even after noise (see the counterexample). -/
theorem C8_sync_never_fails (noise : List Nat) (c i : Nat) (p : List Nat)
    (hb : ∀ b ∈ noise, b < 256)
    (hchain : List.Chain' (fun x y => ¬(x = 0xB5 ∧ y = 0x62)) noise)
    (h1 : 1 ≤ p.length) (h2 : p.length ≤ 999) :
    (∃ a n, pushAll Deframer.new noise =
      (List.replicate noise.length (.ok none), .Sync a n)) ∧
    (pushAll Deframer.new (noise ++ wireBytes c i p)).1 =
      List.replicate noise.length (.ok none) ++
        (List.replicate (p.length + 7) (.ok none) ++
          [.ok (some ⟨c, i, p⟩)]) := by
  have hne : p ≠ [] := by
    intro h
    subst h
    simp at h1
  have hch0 : List.Chain' (fun x y => ¬(x = 0xB5 ∧ y = 0x62))
      ((0 % 256) :: noise) := by
    rw [Nat.zero_mod]
    exact List.chain'_cons'.mpr ⟨fun b _ => by omega, hchain⟩
  have hnoise := pushAll_noise noise 0 0 hb hch0
  constructor
  · exact ⟨_, _, hnoise⟩
  · rw [show Deframer.new = Deframer.Sync 0 0 from rfl, pushAll_append,
      hnoise]
    simp only
    rw [pushAll_wire _ _ c i p hne h2]

/-- Claim C8 witness: noise `[0, 181, 7]` (which even contains a stray
first sync byte) followed by the valid message for (5, 1, `[6]`). -/
theorem C8_sync_never_fails_witness :
    (∃ a n, pushAll Deframer.new [0, 181, 7] =
      (List.replicate 3 (.ok none), .Sync a n)) ∧
    (pushAll Deframer.new ([0, 181, 7] ++ wireBytes 5 1 [6])).1 =
      List.replicate 3 (.ok none) ++
        (List.replicate 8 (.ok none) ++ [.ok (some ⟨5, 1, [6]⟩)]) :=
  C8_sync_never_fails [0, 181, 7] 5 1 [6] (by decide)
    (by simp [List.chain'_cons]) (by decide) (by decide)

/-- Claim C8 counterexample: the noise run `[0, 181, 7]` (no adjacent
sync word) followed by the complete valid wire message with class 5,
id 1 and declared length 0 yields `Ok(None)` on every one of the 11
bytes: the noise is absorbed as the claim says, but the valid
zero-length message completes no Envelope, falsifying the original
claim's "still yields exactly one completed Envelope". -/
theorem C8_sync_never_fails_counterexample :
    (pushAll Deframer.new ([0, 181, 7] ++ wireBytes 5 1 [])).1 =
      List.replicate 11 (.ok none) := by rfl

/-- Claim C9: `push` is a total function of the state and the input
byte, and its result is always exactly one of `Ok(None)`,
`Ok(Some(frame))` or `Err(Checksum)` — there is no other outcome and
no fault, whatever the state and input.  Moreover each reportable
condition is a distinguishable returned value: the error outcome
occurs exactly when the state is `CkA` with a byte differing from the
first computed checksum byte or `CkB` with a byte differing from the
second, so it can never be confused with the other two outcomes. -/
theorem C9_push_total (d : Deframer) (input : Nat) :
    ((d.push input).1 = .ok none ∨
      (∃ f, (d.push input).1 = .ok (some f)) ∨
      (d.push input).1 = .error .Checksum) ∧
    ((d.push input).1 = .error .Checksum ↔
      (∃ cls id msg ck, d = .CkA cls id msg ck ∧ input ≠ ck.1) ∨
      (∃ cls id msg ck, d = .CkB cls id msg ck ∧ input ≠ ck.2)) := by
  constructor
  · rcases d with ⟨a, n⟩ | _ | ⟨cls, cks⟩ | ⟨cls, id, cks⟩ |
      ⟨cls, id, lb, cks⟩ | ⟨cls, id, len, msg, cks⟩ | ⟨cls, id, msg, ck⟩ |
      ⟨cls, id, msg, ck⟩ <;>
      simp only [Deframer.push] <;> (try split) <;> simp
  · rcases d with ⟨a, n⟩ | _ | ⟨cls, cks⟩ | ⟨cls, id, cks⟩ |
      ⟨cls, id, lb, cks⟩ | ⟨cls, id, len, msg, cks⟩ | ⟨cls, id, msg, ck⟩ |
      ⟨cls, id, msg, ck⟩
    case CkA =>
      simp only [Deframer.push]
      split
      · simp_all
      · rename_i h
        constructor
        · intro _
          exact Or.inl ⟨cls, id, msg, ck, rfl, h⟩
        · intro _
          rfl
    case CkB =>
      simp only [Deframer.push]
      split
      · simp_all
      · rename_i h
        constructor
        · intro _
          exact Or.inr ⟨cls, id, msg, ck, rfl, h⟩
        · intro _
          rfl
    all_goals (simp only [Deframer.push]; (try split) <;> simp_all)

/-- Claim C10: the one-shot `deframe` never returns an error for any
byte sequence: its loop keeps only `Ok(Some(frame))` push results,
discarding checksum errors, and falls through to `Ok(None)`. -/
theorem C10_deframe_never_errors (bs : List Nat) :
    ∃ o : Option Frame, deframe bs = .ok o :=
  deframeLoop_isOk bs Deframer.new

end Ublox
